/-
Verification of the `duration` library (normalizeDuration / formatDuration).

The library represents a duration of time as a record of six optional fields
(years, days, hours, minutes, seconds, milliseconds).  JavaScript numbers are
modelled as rationals (every value the library actually computes with is an
integer, but the inputs may be arbitrary numbers, and the non-integer checks
are part of the specification).  Absent / `undefined` fields are modelled as
`none`.

`normalizeDuration` is translated from `src/normalizeDuration.ts`
(`normalizeDuration`, the variant using `Math.floor`), and `formatDuration`
from `src/formatDuration.ts`.
-/

import Mathlib

namespace DurationLib

/-- A duration of time: six optional fields in descending magnitude order.
JavaScript numbers are modelled as `ℚ`; `none` models an absent or
`undefined` property. -/
structure Duration where
  years : Option ℚ
  days : Option ℚ
  hours : Option ℚ
  minutes : Option ℚ
  seconds : Option ℚ
  milliseconds : Option ℚ
deriving Repr, DecidableEq

/-- `Object.values(duration)`: the list of the six field slots. -/
def Duration.values (d : Duration) : List (Option ℚ) :=
  [d.years, d.days, d.hours, d.minutes, d.seconds, d.milliseconds]

/-- `Number.isInteger(value)` for a rational value. -/
def isIntegerQ (q : ℚ) : Bool := q.den == 1

/-- The guard `Object.values(duration).some(value => value && !Number.isInteger(value))`:
some present field is truthy (non-zero) and not an integer. -/
def nonIntegerPresent (d : Duration) : Bool :=
  d.values.any fun o =>
    match o with
    | none => false
    | some v => decide (v ≠ 0) && !(isIntegerQ v)

/-- JavaScript truncation toward zero, as used by the `%` operator. -/
def ratTrunc (q : ℚ) : ℤ := if q < 0 then ⌈q⌉ else ⌊q⌋

/-- `Math.floor`, returning a number. -/
def jsFloor (q : ℚ) : ℚ := (⌊q⌋ : ℚ)

/-- The JavaScript remainder operator `a % b` (truncated division remainder,
taking the sign of the dividend). -/
def jsMod (a b : ℚ) : ℚ := a - b * (ratTrunc (a / b) : ℚ)

/-- Error thrown by `normalizeDuration`
(`NormalizeNonIntegerDurationError`). -/
inductive NormalizeDurationError where
  | nonInteger
deriving Repr, DecidableEq

/-- The body of `normalizeDuration` after the non-integer guard: the carry
pass (smallest unit to largest, with `Math.floor` division and `%`), followed
by the fold pass that stores each computed value if the field was present and
otherwise folds it into the next smaller unit.  Mirrors
`src/normalizeDuration.ts` lines 92-137. -/
def normalizeCarry (duration : Duration) : Duration :=
  let milliseconds := duration.milliseconds.getD 0
  let seconds := duration.seconds.getD 0
  let minutes := duration.minutes.getD 0
  let hours := duration.hours.getD 0
  let days := duration.days.getD 0
  let years := duration.years.getD 0
  let seconds := seconds + jsFloor (milliseconds / 1000)
  let milliseconds := jsMod milliseconds 1000
  let minutes := minutes + jsFloor (seconds / 60)
  let seconds := jsMod seconds 60
  let hours := hours + jsFloor (minutes / 60)
  let minutes := jsMod minutes 60
  let days := days + jsFloor (hours / 24)
  let hours := jsMod hours 24
  let years := years + jsFloor (days / 365)
  let days := jsMod days 365
  let days := if duration.years.isSome then days else days + years * 365
  let hours := if duration.days.isSome then hours else hours + days * 24
  let minutes := if duration.hours.isSome then minutes else minutes + hours * 60
  let seconds := if duration.minutes.isSome then seconds else seconds + minutes * 60
  let milliseconds := if duration.seconds.isSome then milliseconds else milliseconds + seconds * 1000
  { years := duration.years.map fun _ => years
    days := duration.days.map fun _ => days
    hours := duration.hours.map fun _ => hours
    minutes := duration.minutes.map fun _ => minutes
    seconds := duration.seconds.map fun _ => seconds
    milliseconds := duration.milliseconds.map fun _ => milliseconds }

/-- `normalizeDuration` from `src/normalizeDuration.ts`: reject non-integer
present fields, otherwise carry and fold.  The in-place mutation of the
source is modelled by returning the updated duration. -/
def normalizeDuration (duration : Duration) : Except NormalizeDurationError Duration :=
  if nonIntegerPresent duration then
    .error .nonInteger
  else
    .ok (normalizeCarry duration)

/-! ### Cast lemmas: the arithmetic on natural-number-valued fields -/

theorem jsFloor_natCast_div (a b : ℕ) :
    jsFloor ((a : ℚ) / (b : ℚ)) = ((a / b : ℕ) : ℚ) := by
  rw [jsFloor, Rat.floor_natCast_div_natCast]
  norm_cast

theorem ratTrunc_natCast_div (a b : ℕ) :
    ratTrunc ((a : ℚ) / (b : ℚ)) = ((a / b : ℕ) : ℤ) := by
  unfold ratTrunc
  rw [if_neg (by rw [not_lt]; positivity), Rat.floor_natCast_div_natCast]
  norm_cast

theorem jsMod_natCast (a b : ℕ) :
    jsMod (a : ℚ) (b : ℚ) = ((a % b : ℕ) : ℚ) := by
  unfold jsMod
  rw [ratTrunc_natCast_div]
  have h2 : ((b : ℚ)) * ((a / b : ℕ) : ℚ) + ((a % b : ℕ) : ℚ) = (a : ℚ) := by
    exact_mod_cast Nat.div_add_mod a b
  have h3 : (((a / b : ℕ) : ℤ) : ℚ) = ((a / b : ℕ) : ℚ) := by norm_cast
  rw [h3]
  linarith

theorem ratTrunc_natCast (n : ℕ) : ratTrunc (n : ℚ) = (n : ℤ) := by
  unfold ratTrunc
  rw [if_neg (by rw [not_lt]; positivity)]
  exact Int.floor_natCast n

theorem jsFloor_zero : jsFloor 0 = 0 := by simp [jsFloor]

theorem jsMod_zero (b : ℚ) : jsMod 0 b = 0 := by
  simp [jsMod, ratTrunc]

theorem jsFloor_div_1000 (a : ℕ) : jsFloor ((a : ℚ) / 1000) = ((a / 1000 : ℕ) : ℚ) := by
  rw [show (1000 : ℚ) = ((1000 : ℕ) : ℚ) by norm_num]
  exact jsFloor_natCast_div a 1000

theorem jsFloor_div_60 (a : ℕ) : jsFloor ((a : ℚ) / 60) = ((a / 60 : ℕ) : ℚ) := by
  rw [show (60 : ℚ) = ((60 : ℕ) : ℚ) by norm_num]
  exact jsFloor_natCast_div a 60

theorem jsFloor_div_24 (a : ℕ) : jsFloor ((a : ℚ) / 24) = ((a / 24 : ℕ) : ℚ) := by
  rw [show (24 : ℚ) = ((24 : ℕ) : ℚ) by norm_num]
  exact jsFloor_natCast_div a 24

theorem jsFloor_div_365 (a : ℕ) : jsFloor ((a : ℚ) / 365) = ((a / 365 : ℕ) : ℚ) := by
  rw [show (365 : ℚ) = ((365 : ℕ) : ℚ) by norm_num]
  exact jsFloor_natCast_div a 365

theorem jsMod_1000 (a : ℕ) : jsMod (a : ℚ) 1000 = ((a % 1000 : ℕ) : ℚ) := by
  rw [show (1000 : ℚ) = ((1000 : ℕ) : ℚ) by norm_num]
  exact jsMod_natCast a 1000

theorem jsMod_60 (a : ℕ) : jsMod (a : ℚ) 60 = ((a % 60 : ℕ) : ℚ) := by
  rw [show (60 : ℚ) = ((60 : ℕ) : ℚ) by norm_num]
  exact jsMod_natCast a 60

theorem jsMod_24 (a : ℕ) : jsMod (a : ℚ) 24 = ((a % 24 : ℕ) : ℚ) := by
  rw [show (24 : ℚ) = ((24 : ℕ) : ℚ) by norm_num]
  exact jsMod_natCast a 24

theorem jsMod_365 (a : ℕ) : jsMod (a : ℚ) 365 = ((a % 365 : ℕ) : ℚ) := by
  rw [show (365 : ℚ) = ((365 : ℕ) : ℚ) by norm_num]
  exact jsMod_natCast a 365

theorem natCast_mul_365 (a : ℕ) : (a : ℚ) * 365 = ((a * 365 : ℕ) : ℚ) := by push_cast; ring

theorem natCast_mul_24 (a : ℕ) : (a : ℚ) * 24 = ((a * 24 : ℕ) : ℚ) := by push_cast; ring

theorem natCast_mul_60 (a : ℕ) : (a : ℚ) * 60 = ((a * 60 : ℕ) : ℚ) := by push_cast; ring

theorem natCast_mul_1000 (a : ℕ) : (a : ℚ) * 1000 = ((a * 1000 : ℕ) : ℚ) := by push_cast; ring

/-! ### Natural-number view of durations

A duration whose present fields are non-negative integers — the shape every
claim about `normalizeDuration` quantifies over. -/

/-- A duration with non-negative integer fields. -/
structure NatDuration where
  years : Option ℕ
  days : Option ℕ
  hours : Option ℕ
  minutes : Option ℕ
  seconds : Option ℕ
  milliseconds : Option ℕ
deriving Repr, DecidableEq

/-- The duration (with JavaScript-number fields) denoted by a `NatDuration`. -/
def NatDuration.toDuration (d : NatDuration) : Duration where
  years := d.years.map (Nat.cast)
  days := d.days.map (Nat.cast)
  hours := d.hours.map (Nat.cast)
  minutes := d.minutes.map (Nat.cast)
  seconds := d.seconds.map (Nat.cast)
  milliseconds := d.milliseconds.map (Nat.cast)

/-- The carry-and-fold pass of `normalizeDuration`, specialized to
non-negative integer fields (on which `Math.floor` division is `Nat`
division and `%` is `Nat` mod). -/
def natCarry (d : NatDuration) : NatDuration :=
  let milliseconds := d.milliseconds.getD 0
  let seconds := d.seconds.getD 0
  let minutes := d.minutes.getD 0
  let hours := d.hours.getD 0
  let days := d.days.getD 0
  let years := d.years.getD 0
  let seconds := seconds + milliseconds / 1000
  let milliseconds := milliseconds % 1000
  let minutes := minutes + seconds / 60
  let seconds := seconds % 60
  let hours := hours + minutes / 60
  let minutes := minutes % 60
  let days := days + hours / 24
  let hours := hours % 24
  let years := years + days / 365
  let days := days % 365
  let days := if d.years.isSome then days else days + years * 365
  let hours := if d.days.isSome then hours else hours + days * 24
  let minutes := if d.hours.isSome then minutes else minutes + hours * 60
  let seconds := if d.minutes.isSome then seconds else seconds + minutes * 60
  let milliseconds := if d.seconds.isSome then milliseconds else milliseconds + seconds * 1000
  { years := d.years.map fun _ => years
    days := d.days.map fun _ => days
    hours := d.hours.map fun _ => hours
    minutes := d.minutes.map fun _ => minutes
    seconds := d.seconds.map fun _ => seconds
    milliseconds := d.milliseconds.map fun _ => milliseconds }

/-- A duration with non-negative integer fields has no non-integer field, so
the `normalizeDuration` guard passes. -/
theorem nonIntegerPresent_toDuration (d : NatDuration) :
    nonIntegerPresent d.toDuration = false := by
  obtain ⟨oy, od, oh, om, os, oms⟩ := d
  rcases oy with _ | y <;> rcases od with _ | dd <;> rcases oh with _ | hh <;>
    rcases om with _ | mm <;> rcases os with _ | ss <;> rcases oms with _ | ms <;>
    simp [nonIntegerPresent, Duration.values, NatDuration.toDuration, isIntegerQ]

/-- On non-negative integer fields, the carry-and-fold pass of
`normalizeDuration` computes exactly the natural-number carry-and-fold. -/
theorem normalizeCarry_toDuration (d : NatDuration) :
    normalizeCarry d.toDuration = (natCarry d).toDuration := by
  obtain ⟨oy, od, oh, om, os, oms⟩ := d
  rcases oy with _ | y <;> rcases od with _ | dd <;> rcases oh with _ | hh <;>
    rcases om with _ | mm <;> rcases os with _ | ss <;> rcases oms with _ | ms <;>
    simp only [normalizeCarry, natCarry, NatDuration.toDuration,
      Option.map_some', Option.map_none', Option.getD_some, Option.getD_none,
      Option.isSome_some, Option.isSome_none,
      eq_self_iff_true, if_true, Bool.false_eq_true, if_false,
      zero_add, add_zero, zero_mul, mul_zero, zero_div,
      Nat.zero_div, Nat.zero_mod,
      jsFloor_zero, jsMod_zero,
      jsFloor_div_1000, jsFloor_div_60, jsFloor_div_24, jsFloor_div_365,
      jsMod_1000, jsMod_60, jsMod_24, jsMod_365,
      natCast_mul_365, natCast_mul_24, natCast_mul_60, natCast_mul_1000,
      ← Nat.cast_add]

/-- On non-negative integer fields, `normalizeDuration` succeeds and computes
the natural-number carry-and-fold. -/
theorem normalizeDuration_toDuration (d : NatDuration) :
    normalizeDuration d.toDuration = .ok (natCarry d).toDuration := by
  rw [normalizeDuration, nonIntegerPresent_toDuration, normalizeCarry_toDuration]
  rfl

/-! ### Claims about `normalizeDuration` -/

/-- C1: for every non-negative integer `ms`, normalizing
`{years:0, days:0, hours:0, minutes:0, seconds:0, milliseconds:ms}` yields
fields with milliseconds in `[0,1000)`, seconds in `[0,60)`, minutes in
`[0,60)`, hours in `[0,24)`, days in `[0,365)`, whose reconstructed total
`((((y*365+d)*24+h)*60+m)*60+s)*1000+ms` equals the original `ms`; in
particular `ms = 1733140034227` yields exactly
`{years:54, days:349, hours:11, minutes:47, seconds:14, milliseconds:227}`. -/
theorem normalizeDuration_carry_correct :
    (∀ ms : ℕ, ∃ y dd hh mi ss msr : ℕ,
      normalizeDuration ⟨some 0, some 0, some 0, some 0, some 0, some (ms : ℚ)⟩ =
        .ok ⟨some (y : ℚ), some (dd : ℚ), some (hh : ℚ), some (mi : ℚ),
             some (ss : ℚ), some (msr : ℚ)⟩ ∧
      msr < 1000 ∧ ss < 60 ∧ mi < 60 ∧ hh < 24 ∧ dd < 365 ∧
      ((((y * 365 + dd) * 24 + hh) * 60 + mi) * 60 + ss) * 1000 + msr = ms) ∧
    normalizeDuration ⟨some 0, some 0, some 0, some 0, some 0, some 1733140034227⟩ =
      .ok ⟨some 54, some 349, some 11, some 47, some 14, some 227⟩ := by
  constructor
  · intro ms
    refine ⟨ms / 1000 / 60 / 60 / 24 / 365, ms / 1000 / 60 / 60 / 24 % 365,
      ms / 1000 / 60 / 60 % 24, ms / 1000 / 60 % 60, ms / 1000 % 60, ms % 1000,
      ?_, by omega, by omega, by omega, by omega, by omega, by omega⟩
    have h := normalizeDuration_toDuration ⟨some 0, some 0, some 0, some 0, some 0, some ms⟩
    simpa [NatDuration.toDuration, natCarry] using h
  · have h := normalizeDuration_toDuration
      ⟨some 0, some 0, some 0, some 0, some 0, some 1733140034227⟩
    simpa [NatDuration.toDuration, natCarry] using h

/-- The total duration in milliseconds represented by a duration (absent
fields count as zero), using the fixed conversion constants
1s = 1000ms, 1min = 60s, 1h = 60min, 1d = 24h, 1y = 365d. -/
def totalMs (d : Duration) : ℚ :=
  ((((d.years.getD 0 * 365 + d.days.getD 0) * 24 + d.hours.getD 0) * 60 +
      d.minutes.getD 0) * 60 + d.seconds.getD 0) * 1000 + d.milliseconds.getD 0

/-- Milliseconds contributed by the units up to and including milliseconds. -/
def subMs (d : Duration) : ℚ := d.milliseconds.getD 0

/-- Milliseconds contributed by the units up to and including seconds. -/
def subSeconds (d : Duration) : ℚ := d.seconds.getD 0 * 1000 + subMs d

/-- Milliseconds contributed by the units up to and including minutes. -/
def subMinutes (d : Duration) : ℚ := d.minutes.getD 0 * 60000 + subSeconds d

/-- Milliseconds contributed by the units up to and including hours. -/
def subHours (d : Duration) : ℚ := d.hours.getD 0 * 3600000 + subMinutes d

/-- Milliseconds contributed by the units up to and including days. -/
def subDays (d : Duration) : ℚ := d.days.getD 0 * 86400000 + subHours d

/-- The total of a `NatDuration` in milliseconds. -/
def natTotal (d : NatDuration) : ℕ :=
  ((((d.years.getD 0 * 365 + d.days.getD 0) * 24 + d.hours.getD 0) * 60 +
      d.minutes.getD 0) * 60 + d.seconds.getD 0) * 1000 + d.milliseconds.getD 0

/-- `NatDuration` counterpart of `subMs`. -/
def natSubMs (d : NatDuration) : ℕ := d.milliseconds.getD 0

/-- `NatDuration` counterpart of `subSeconds`. -/
def natSubSeconds (d : NatDuration) : ℕ := d.seconds.getD 0 * 1000 + natSubMs d

/-- `NatDuration` counterpart of `subMinutes`. -/
def natSubMinutes (d : NatDuration) : ℕ := d.minutes.getD 0 * 60000 + natSubSeconds d

/-- `NatDuration` counterpart of `subHours`. -/
def natSubHours (d : NatDuration) : ℕ := d.hours.getD 0 * 3600000 + natSubMinutes d

/-- `NatDuration` counterpart of `subDays`. -/
def natSubDays (d : NatDuration) : ℕ := d.days.getD 0 * 86400000 + natSubHours d

theorem getD_map_natCast (o : Option ℕ) :
    (o.map (Nat.cast : ℕ → ℚ)).getD 0 = ((o.getD 0 : ℕ) : ℚ) := by
  cases o <;> simp

theorem map_natCast_eq_some {o : Option ℕ} {v : ℚ}
    (h : o.map (Nat.cast : ℕ → ℚ) = some v) : ∃ n : ℕ, v = (n : ℚ) := by
  cases o with
  | none => simp at h
  | some n => exact ⟨n, (by simpa using h : ((n : ℕ) : ℚ) = v).symm⟩

theorem toDuration_years (x : NatDuration) :
    x.toDuration.years = x.years.map (Nat.cast : ℕ → ℚ) := rfl

theorem toDuration_days (x : NatDuration) :
    x.toDuration.days = x.days.map (Nat.cast : ℕ → ℚ) := rfl

theorem toDuration_hours (x : NatDuration) :
    x.toDuration.hours = x.hours.map (Nat.cast : ℕ → ℚ) := rfl

theorem toDuration_minutes (x : NatDuration) :
    x.toDuration.minutes = x.minutes.map (Nat.cast : ℕ → ℚ) := rfl

theorem toDuration_seconds (x : NatDuration) :
    x.toDuration.seconds = x.seconds.map (Nat.cast : ℕ → ℚ) := rfl

theorem toDuration_milliseconds (x : NatDuration) :
    x.toDuration.milliseconds = x.milliseconds.map (Nat.cast : ℕ → ℚ) := rfl

theorem totalMs_toDuration (x : NatDuration) : totalMs x.toDuration = (natTotal x : ℚ) := by
  simp only [totalMs, natTotal, toDuration_years, toDuration_days, toDuration_hours,
    toDuration_minutes, toDuration_seconds, toDuration_milliseconds, getD_map_natCast]
  push_cast
  ring

theorem subMs_toDuration (x : NatDuration) : subMs x.toDuration = (natSubMs x : ℚ) := by
  simp only [subMs, natSubMs, toDuration_milliseconds, getD_map_natCast]

theorem subSeconds_toDuration (x : NatDuration) :
    subSeconds x.toDuration = (natSubSeconds x : ℚ) := by
  simp only [subSeconds, natSubSeconds, subMs_toDuration, toDuration_seconds, getD_map_natCast]
  push_cast
  ring

theorem subMinutes_toDuration (x : NatDuration) :
    subMinutes x.toDuration = (natSubMinutes x : ℚ) := by
  simp only [subMinutes, natSubMinutes, subSeconds_toDuration, toDuration_minutes,
    getD_map_natCast]
  push_cast
  ring

theorem subHours_toDuration (x : NatDuration) :
    subHours x.toDuration = (natSubHours x : ℚ) := by
  simp only [subHours, natSubHours, subMinutes_toDuration, toDuration_hours, getD_map_natCast]
  push_cast
  ring

theorem subDays_toDuration (x : NatDuration) :
    subDays x.toDuration = (natSubDays x : ℚ) := by
  simp only [subDays, natSubDays, subHours_toDuration, toDuration_days, getD_map_natCast]
  push_cast
  ring

set_option maxRecDepth 8000 in
set_option maxHeartbeats 1600000 in
/-- The carry-and-fold pass preserves the total and leaves every unit that
lies below some larger present unit minimal: the subtotal contributed by a
unit and everything below it is smaller than one unit of any larger present
unit. -/
theorem natCarry_spec (nd : NatDuration) :
    natTotal (natCarry nd) = natTotal nd ∧
    ((nd.milliseconds.isSome = true → nd.seconds.isSome = true → natSubMs (natCarry nd) < 1000) ∧
     (nd.milliseconds.isSome = true → nd.minutes.isSome = true → natSubMs (natCarry nd) < 60000) ∧
     (nd.milliseconds.isSome = true → nd.hours.isSome = true → natSubMs (natCarry nd) < 3600000) ∧
     (nd.milliseconds.isSome = true → nd.days.isSome = true → natSubMs (natCarry nd) < 86400000) ∧
     (nd.milliseconds.isSome = true → nd.years.isSome = true → natSubMs (natCarry nd) < 31536000000) ∧
     (nd.seconds.isSome = true → nd.minutes.isSome = true → natSubSeconds (natCarry nd) < 60000) ∧
     (nd.seconds.isSome = true → nd.hours.isSome = true → natSubSeconds (natCarry nd) < 3600000) ∧
     (nd.seconds.isSome = true → nd.days.isSome = true → natSubSeconds (natCarry nd) < 86400000) ∧
     (nd.seconds.isSome = true → nd.years.isSome = true → natSubSeconds (natCarry nd) < 31536000000) ∧
     (nd.minutes.isSome = true → nd.hours.isSome = true → natSubMinutes (natCarry nd) < 3600000) ∧
     (nd.minutes.isSome = true → nd.days.isSome = true → natSubMinutes (natCarry nd) < 86400000) ∧
     (nd.minutes.isSome = true → nd.years.isSome = true → natSubMinutes (natCarry nd) < 31536000000) ∧
     (nd.hours.isSome = true → nd.days.isSome = true → natSubHours (natCarry nd) < 86400000) ∧
     (nd.hours.isSome = true → nd.years.isSome = true → natSubHours (natCarry nd) < 31536000000) ∧
     (nd.days.isSome = true → nd.years.isSome = true → natSubDays (natCarry nd) < 31536000000)) := by
  obtain ⟨oy, od, oh, om, os, oms⟩ := nd
  rcases oy with _ | y <;> rcases od with _ | dd <;> rcases oh with _ | hh <;>
    rcases om with _ | mm <;> rcases os with _ | ss <;> rcases oms with _ | ms <;>
    simp only [natCarry, natTotal, natSubMs, natSubSeconds, natSubMinutes, natSubHours,
      natSubDays, Option.map_some', Option.map_none', Option.getD_some, Option.getD_none,
      Option.isSome_some, Option.isSome_none,
      eq_self_iff_true, if_true, Bool.false_eq_true, if_false, forall_const, false_implies,
      true_implies, true_and, and_true, zero_add, add_zero, zero_mul, mul_zero,
      Nat.zero_div, Nat.zero_mod] <;>
    omega

/-- C2: on a duration with non-negative integer fields and at least one
present field, `normalizeDuration` succeeds with a result that (a) keeps
every originally present field present and every absent field absent, (b)
has every present field equal to a non-negative integer, (c) represents the
same total duration, and (d) gives every present unit that lies below some
larger present unit the minimal non-negative value consistent with that
total: the milliseconds contributed by a present unit and everything below
it are non-negative and less than one unit of any larger present unit, the
remainder having been carried (through absent units) into the largest
present unit — non-negativity, the subtotal bounds and the preserved total
together force each such unit to hold exactly the minimal non-negative
value. -/
theorem normalizeDuration_minimal_carry (nd : NatDuration)
    (hpres : nd.years.isSome = true ∨ nd.days.isSome = true ∨ nd.hours.isSome = true ∨
      nd.minutes.isSome = true ∨ nd.seconds.isSome = true ∨ nd.milliseconds.isSome = true) :
    ∃ d' : Duration, normalizeDuration nd.toDuration = .ok d' ∧
      (d'.years.isSome = nd.toDuration.years.isSome ∧
       d'.days.isSome = nd.toDuration.days.isSome ∧
       d'.hours.isSome = nd.toDuration.hours.isSome ∧
       d'.minutes.isSome = nd.toDuration.minutes.isSome ∧
       d'.seconds.isSome = nd.toDuration.seconds.isSome ∧
       d'.milliseconds.isSome = nd.toDuration.milliseconds.isSome) ∧
      ((∀ v : ℚ, d'.years = some v → ∃ n : ℕ, v = (n : ℚ)) ∧
       (∀ v : ℚ, d'.days = some v → ∃ n : ℕ, v = (n : ℚ)) ∧
       (∀ v : ℚ, d'.hours = some v → ∃ n : ℕ, v = (n : ℚ)) ∧
       (∀ v : ℚ, d'.minutes = some v → ∃ n : ℕ, v = (n : ℚ)) ∧
       (∀ v : ℚ, d'.seconds = some v → ∃ n : ℕ, v = (n : ℚ)) ∧
       (∀ v : ℚ, d'.milliseconds = some v → ∃ n : ℕ, v = (n : ℚ))) ∧
      totalMs d' = totalMs nd.toDuration ∧
      ((nd.milliseconds.isSome = true → nd.seconds.isSome = true → subMs d' < 1000) ∧
       (nd.milliseconds.isSome = true → nd.minutes.isSome = true → subMs d' < 60000) ∧
       (nd.milliseconds.isSome = true → nd.hours.isSome = true → subMs d' < 3600000) ∧
       (nd.milliseconds.isSome = true → nd.days.isSome = true → subMs d' < 86400000) ∧
       (nd.milliseconds.isSome = true → nd.years.isSome = true → subMs d' < 31536000000) ∧
       (nd.seconds.isSome = true → nd.minutes.isSome = true → subSeconds d' < 60000) ∧
       (nd.seconds.isSome = true → nd.hours.isSome = true → subSeconds d' < 3600000) ∧
       (nd.seconds.isSome = true → nd.days.isSome = true → subSeconds d' < 86400000) ∧
       (nd.seconds.isSome = true → nd.years.isSome = true → subSeconds d' < 31536000000) ∧
       (nd.minutes.isSome = true → nd.hours.isSome = true → subMinutes d' < 3600000) ∧
       (nd.minutes.isSome = true → nd.days.isSome = true → subMinutes d' < 86400000) ∧
       (nd.minutes.isSome = true → nd.years.isSome = true → subMinutes d' < 31536000000) ∧
       (nd.hours.isSome = true → nd.days.isSome = true → subHours d' < 86400000) ∧
       (nd.hours.isSome = true → nd.years.isSome = true → subHours d' < 31536000000) ∧
       (nd.days.isSome = true → nd.years.isSome = true → subDays d' < 31536000000)) := by
  refine ⟨(natCarry nd).toDuration, normalizeDuration_toDuration nd, ?_, ?_, ?_, ?_⟩
  · simp [natCarry, NatDuration.toDuration]
  · exact ⟨fun v h => map_natCast_eq_some h, fun v h => map_natCast_eq_some h,
      fun v h => map_natCast_eq_some h, fun v h => map_natCast_eq_some h,
      fun v h => map_natCast_eq_some h, fun v h => map_natCast_eq_some h⟩
  · rw [totalMs_toDuration, totalMs_toDuration]
    exact_mod_cast (natCarry_spec nd).1
  · have H := (natCarry_spec nd).2
    simp only [subMs_toDuration, subSeconds_toDuration, subMinutes_toDuration,
      subHours_toDuration, subDays_toDuration]
    exact_mod_cast H

/-- Witness for C2 at a duration with only minutes and milliseconds set. -/
theorem normalizeDuration_minimal_carry_witness :
    (⟨none, none, none, some 130, none, some 61002⟩ : NatDuration).minutes.isSome = true ∧
    ∃ d' : Duration,
      normalizeDuration (NatDuration.toDuration ⟨none, none, none, some 130, none, some 61002⟩) =
        .ok d' ∧ totalMs d' = totalMs (NatDuration.toDuration
          ⟨none, none, none, some 130, none, some 61002⟩) := by
  refine ⟨by decide, ?_⟩
  obtain ⟨d', heq, _, _, htotal, _⟩ :=
    normalizeDuration_minimal_carry ⟨none, none, none, some 130, none, some 61002⟩
      (by simp)
  exact ⟨d', heq, htotal⟩

/-- C8: `normalizeDuration` is a no-op on a duration whose six fields are all
present, integral and within bounds (milliseconds `< 1000`, seconds `< 60`,
minutes `< 60`, hours `< 24`, days `< 365`, years any non-negative
integer). -/
theorem normalizeDuration_idempotent_on_normalized (y dd hh mi ss msr : ℕ)
    (hms : msr < 1000) (hs : ss < 60) (hmi : mi < 60) (hh24 : hh < 24) (hd : dd < 365) :
    normalizeDuration
        ⟨some (y : ℚ), some (dd : ℚ), some (hh : ℚ), some (mi : ℚ),
         some (ss : ℚ), some (msr : ℚ)⟩ =
      .ok ⟨some (y : ℚ), some (dd : ℚ), some (hh : ℚ), some (mi : ℚ),
           some (ss : ℚ), some (msr : ℚ)⟩ := by
  have h := normalizeDuration_toDuration ⟨some y, some dd, some hh, some mi, some ss, some msr⟩
  simpa [NatDuration.toDuration, natCarry, Nat.div_eq_of_lt, Nat.mod_eq_of_lt,
    hms, hs, hmi, hh24, hd] using h

/-- Witness for C8 at a concrete normalized duration. -/
theorem normalizeDuration_idempotent_on_normalized_witness :
    ((500 : ℕ) < 1000 ∧ (20 : ℕ) < 60 ∧ (10 : ℕ) < 60 ∧ (3 : ℕ) < 24 ∧ (100 : ℕ) < 365) ∧
    normalizeDuration
        ⟨some ((5 : ℕ) : ℚ), some ((100 : ℕ) : ℚ), some ((3 : ℕ) : ℚ),
         some ((10 : ℕ) : ℚ), some ((20 : ℕ) : ℚ), some ((500 : ℕ) : ℚ)⟩ =
      .ok ⟨some ((5 : ℕ) : ℚ), some ((100 : ℕ) : ℚ), some ((3 : ℕ) : ℚ),
           some ((10 : ℕ) : ℚ), some ((20 : ℕ) : ℚ), some ((500 : ℕ) : ℚ)⟩ :=
  ⟨by norm_num,
   normalizeDuration_idempotent_on_normalized 5 100 3 10 20 500
     (by norm_num) (by norm_num) (by norm_num) (by norm_num) (by norm_num)⟩

/-! ### `formatDuration`, from `src/formatDuration.ts` -/

/-- The value of the `hideZero` option: `boolean | "leading"`. -/
inductive HideZeroValue where
  | bool (b : Bool)
  | leading
deriving Repr, DecidableEq

/-- JavaScript truthiness of `options.hideZero` (absent and `false` are
falsy, `true` and the non-empty string `"leading"` are truthy). -/
def hideZeroTruthy : Option HideZeroValue → Bool
  | none => false
  | some (.bool b) => b
  | some .leading => true

/-- Options of `formatDuration`; `none` models an absent/`undefined`
option. -/
structure FormatDurationOptions where
  hideZero : Option HideZeroValue := none
  maxEntries : Option ℚ := none
  noSpaceBeforeUnit : Bool := false
  separator : Option String := none
  yearUnitNameSingular : Option String := none
  yearUnitNamePlural : Option String := none
  dayUnitNameSingular : Option String := none
  dayUnitNamePlural : Option String := none
  hourUnitNameSingular : Option String := none
  hourUnitNamePlural : Option String := none
  minuteUnitNameSingular : Option String := none
  minuteUnitNamePlural : Option String := none
  secondUnitNameSingular : Option String := none
  secondUnitNamePlural : Option String := none
  millisecondUnitNameSingular : Option String := none
  millisecondUnitNamePlural : Option String := none
deriving Repr, DecidableEq

/-- The errors `formatDuration` can throw: `FormatEmptyDurationError`,
`FormatNonIntegerDurationError` and `FormatDurationOptionError`. -/
inductive FormatDurationError where
  | emptyDuration
  | nonInteger
  | invalidOption
deriving Repr, DecidableEq

/-- An element of the `entries` array: `{ value: number, unit: string }`. -/
structure FormatEntry where
  value : ℚ
  unit : String
deriving Repr, DecidableEq

/-- JavaScript number-to-string conversion for the values that reach
rendering.  The guard of `formatDuration` rejects every non-zero non-integer
field, so every rendered value is an integer and prints as its integer
numeral; the non-integer branch is unreachable in `formatDuration`. -/
def ratToString (q : ℚ) : String := if q.den = 1 then toString q.num else toString q

/-- The `entries` array of `formatDuration` (lines 412-440): one entry per
present field, in descending magnitude order, with the unit name resolved
from the options (singular exactly when the value equals 1). -/
def formatEntries (duration : Duration) (options : FormatDurationOptions) : List FormatEntry :=
  let yearUnitNameSingular := options.yearUnitNameSingular.getD "year"
  let yearUnitNamePlural := options.yearUnitNamePlural.getD "years"
  let dayUnitNameSingular := options.dayUnitNameSingular.getD "day"
  let dayUnitNamePlural := options.dayUnitNamePlural.getD "days"
  let hourUnitNameSingular := options.hourUnitNameSingular.getD "hour"
  let hourUnitNamePlural := options.hourUnitNamePlural.getD "hours"
  let minuteUnitNameSingular := options.minuteUnitNameSingular.getD "minute"
  let minuteUnitNamePlural := options.minuteUnitNamePlural.getD "minutes"
  let secondUnitNameSingular := options.secondUnitNameSingular.getD "second"
  let secondUnitNamePlural := options.secondUnitNamePlural.getD "seconds"
  let millisecondUnitNameSingular := options.millisecondUnitNameSingular.getD "millisecond"
  let millisecondUnitNamePlural := options.millisecondUnitNamePlural.getD "milliseconds"
  ([duration.years.map fun v =>
      { value := v, unit := if v = 1 then yearUnitNameSingular else yearUnitNamePlural },
    duration.days.map fun v =>
      { value := v, unit := if v = 1 then dayUnitNameSingular else dayUnitNamePlural },
    duration.hours.map fun v =>
      { value := v, unit := if v = 1 then hourUnitNameSingular else hourUnitNamePlural },
    duration.minutes.map fun v =>
      { value := v, unit := if v = 1 then minuteUnitNameSingular else minuteUnitNamePlural },
    duration.seconds.map fun v =>
      { value := v, unit := if v = 1 then secondUnitNameSingular else secondUnitNamePlural },
    duration.milliseconds.map fun v =>
      { value := v,
        unit := if v = 1 then millisecondUnitNameSingular else millisecondUnitNamePlural }] :
      List (Option FormatEntry)).filterMap id

/-- Rendering of one entry:
`` `${item.value}${options.noSpaceBeforeUnit ? `` : ` `}${item.unit}` ``. -/
def renderEntry (options : FormatDurationOptions) (item : FormatEntry) : String :=
  ratToString item.value ++ (if options.noSpaceBeforeUnit then "" else " ") ++ item.unit

/-- `array.slice(0, options.maxEntries)`: the whole array when `maxEntries`
is `undefined`, otherwise the first `maxEntries` elements (a fractional
bound would be truncated toward zero). -/
def sliceTo (l : List FormatEntry) : Option ℚ → List FormatEntry
  | none => l
  | some n => l.take (ratTrunc n).toNat

/-- JavaScript `array.findIndex(p)`: the first index satisfying `p`, or `-1`
if there is none. -/
def jsFindIndex {α : Type} (p : α → Bool) (l : List α) : ℤ :=
  match l.findIdx? p with
  | some i => (i : ℤ)
  | none => -1

/-- `formatDuration` from `src/formatDuration.ts` lines 398-462.  The
JavaScript default `options = {}` is the record with every option absent. -/
def formatDuration (duration : Duration) (options : FormatDurationOptions) :
    Except FormatDurationError String :=
  if (match options.maxEntries with | some n => decide (n < 1) | none => false) then
    .error .invalidOption
  else if (match options.maxEntries with | some n => !(isIntegerQ n) | none => false) then
    .error .invalidOption
  else if nonIntegerPresent duration then
    .error .nonInteger
  else
    let entries := formatEntries duration options
    if entries.isEmpty then
      .error .emptyDuration
    else if hideZeroTruthy options.hideZero then
      let nonZeros :=
        if options.hideZero = some .leading then
          entries.drop (max 0 (jsFindIndex (fun item => decide (item.value ≠ 0)) entries)).toNat
        else
          entries.filter fun item => decide (item.value ≠ 0)
      if !nonZeros.isEmpty then
        .ok (String.intercalate (options.separator.getD ", ")
          ((sliceTo nonZeros options.maxEntries).map (renderEntry options)))
      else
        .ok ("0 " ++ ((entries.getLast?.map fun e => e.unit).getD ""))
    else
      .ok (String.intercalate (options.separator.getD ", ")
        ((sliceTo entries options.maxEntries).map (renderEntry options)))

instance {ε α : Type} [DecidableEq ε] [DecidableEq α] : DecidableEq (Except ε α) := fun a b =>
  match a, b with
  | .error e, .error f => decidable_of_iff (e = f) (by simp)
  | .ok x, .ok y => decidable_of_iff (x = y) (by simp)
  | .error _, .ok _ => isFalse (by simp)
  | .ok _, .error _ => isFalse (by simp)

/-! ### Error classification helpers -/

theorem den_one_iff_int (v : ℚ) : v.den = 1 ↔ ∃ k : ℤ, v = (k : ℚ) := by
  constructor
  · intro h
    exact ⟨v.num, (Rat.coe_int_num_of_den_eq_one h).symm⟩
  · rintro ⟨k, rfl⟩
    exact Rat.den_intCast k

theorem isIntegerQ_iff (v : ℚ) : isIntegerQ v = true ↔ ∃ k : ℤ, v = (k : ℚ) := by
  rw [isIntegerQ, beq_iff_eq]
  exact den_one_iff_int v

/-- A rational fails to be a positive integer exactly when it is `< 1` or
not an integer (the two rejection tests on `maxEntries`). -/
theorem not_posInt_iff (q : ℚ) :
    (q < 1 ∨ isIntegerQ q = false) ↔ ¬∃ k : ℤ, q = (k : ℚ) ∧ 1 ≤ k := by
  constructor
  · rintro (hlt | hni) ⟨k, rfl, hk⟩
    · have h1 : (1 : ℚ) ≤ (k : ℚ) := by exact_mod_cast hk
      linarith
    · rw [Bool.eq_false_iff] at hni
      exact hni ((isIntegerQ_iff _).mpr ⟨k, rfl⟩)
  · intro h
    by_cases hint : isIntegerQ q = true
    · left
      obtain ⟨k, rfl⟩ := (isIntegerQ_iff q).mp hint
      by_contra hlt
      rw [not_lt] at hlt
      exact h ⟨k, rfl, by exact_mod_cast hlt⟩
    · right
      simpa using hint

theorem nonIntegerPresent_iff (d : Duration) :
    nonIntegerPresent d = true ↔
      ∃ v : ℚ, some v ∈ d.values ∧ v ≠ 0 ∧ ¬∃ k : ℤ, v = (k : ℚ) := by
  rw [nonIntegerPresent, List.any_eq_true]
  constructor
  · rintro ⟨o, ho, hmatch⟩
    cases o with
    | none => simp at hmatch
    | some v =>
      simp only [Bool.and_eq_true, decide_eq_true_eq, Bool.not_eq_true'] at hmatch
      exact ⟨v, ho, hmatch.1, fun hk => by
        have := (isIntegerQ_iff v).mpr hk
        rw [hmatch.2] at this
        exact Bool.false_ne_true this⟩
  · rintro ⟨v, hv, h0, hInt⟩
    refine ⟨some v, hv, ?_⟩
    simp only [Bool.and_eq_true, decide_eq_true_eq, Bool.not_eq_true']
    refine ⟨h0, ?_⟩
    rw [Bool.eq_false_iff]
    intro htrue
    exact hInt ((isIntegerQ_iff v).mp htrue)

/-! ### Claims about `formatDuration` -/

/-- C7: `formatDuration` raises `FormatDurationOptionError` exactly when
`maxEntries` is present but not a positive integer, whatever the duration;
in particular `format({milliseconds:0}, {maxEntries:0})` and
`format({milliseconds:0}, {maxEntries:1.5})` both raise it. -/
theorem formatDuration_invalidOption_iff :
    (∀ (d : Duration) (o : FormatDurationOptions),
      formatDuration d o = .error .invalidOption ↔
        ∃ q : ℚ, o.maxEntries = some q ∧ ¬∃ k : ℤ, q = (k : ℚ) ∧ 1 ≤ k) ∧
    formatDuration ⟨none, none, none, none, none, some 0⟩
        { maxEntries := some 0 } = .error .invalidOption ∧
    formatDuration ⟨none, none, none, none, none, some 0⟩
        { maxEntries := some (mkRat 3 2) } = .error .invalidOption := by
  refine ⟨?_, by decide, by decide⟩
  intro d o
  have key : formatDuration d o = .error .invalidOption ↔
      ∃ q : ℚ, o.maxEntries = some q ∧ (q < 1 ∨ isIntegerQ q = false) := by
    rcases hq : o.maxEntries with _ | q
    · simp only [formatDuration, hq]
      split_ifs <;> simp_all [hq]
    · by_cases h1 : q < 1
      · simp [formatDuration, hq, h1]
      · by_cases h2 : isIntegerQ q = true
        · simp only [formatDuration, hq]
          split_ifs <;> simp_all [hq]
        · simp only [Bool.not_eq_true] at h2
          simp [formatDuration, hq, h1, h2]
  rw [key]
  exact exists_congr fun q => and_congr_right fun _ => not_posInt_iff q

theorem maxEntries_guard1_eq_false (o : FormatDurationOptions)
    (hvalid : ∀ q : ℚ, o.maxEntries = some q → ∃ k : ℤ, q = (k : ℚ) ∧ 1 ≤ k) :
    (match o.maxEntries with | some n => decide (n < 1) | none => false) = false := by
  rcases hq : o.maxEntries with _ | q
  · rfl
  · obtain ⟨k, rfl, hk⟩ := hvalid q hq
    simp only [decide_eq_false_iff_not, not_lt]
    exact_mod_cast hk

theorem maxEntries_guard2_eq_false (o : FormatDurationOptions)
    (hvalid : ∀ q : ℚ, o.maxEntries = some q → ∃ k : ℤ, q = (k : ℚ) ∧ 1 ≤ k) :
    (match o.maxEntries with | some n => !(isIntegerQ n) | none => false) = false := by
  rcases hq : o.maxEntries with _ | q
  · rfl
  · obtain ⟨k, rfl, hk⟩ := hvalid q hq
    simp only [Bool.not_eq_false']
    exact (isIntegerQ_iff _).mpr ⟨k, rfl⟩

/-- C3: `normalizeDuration` raises its non-integer error exactly when some
present, non-zero field is not a whole number (and then returns no partial
result), and `formatDuration` — under options whose `maxEntries`, if any,
passes its own earlier check — raises its non-integer error under exactly
the same condition on the duration. -/
theorem nonInteger_error_iff (d : Duration) :
    (normalizeDuration d = .error .nonInteger ↔
      ∃ v : ℚ, some v ∈ d.values ∧ v ≠ 0 ∧ ¬∃ k : ℤ, v = (k : ℚ)) ∧
    (∀ o : FormatDurationOptions,
      (∀ q : ℚ, o.maxEntries = some q → ∃ k : ℤ, q = (k : ℚ) ∧ 1 ≤ k) →
      (formatDuration d o = .error .nonInteger ↔
        ∃ v : ℚ, some v ∈ d.values ∧ v ≠ 0 ∧ ¬∃ k : ℤ, v = (k : ℚ))) := by
  constructor
  · rw [normalizeDuration, ← nonIntegerPresent_iff]
    by_cases h : nonIntegerPresent d <;> simp [h]
  · intro o hvalid
    rw [formatDuration, maxEntries_guard1_eq_false o hvalid, maxEntries_guard2_eq_false o hvalid,
      ← nonIntegerPresent_iff]
    by_cases h : nonIntegerPresent d
    · simp [h]
    · simp only [h, Bool.false_eq_true, if_false]
      split_ifs <;> simp [h]

/-- Witness for C3 at a duration with a present non-integer field and the
empty options record. -/
theorem nonInteger_error_iff_witness :
    (∀ q : ℚ, ({} : FormatDurationOptions).maxEntries = some q →
      ∃ k : ℤ, q = (k : ℚ) ∧ 1 ≤ k) ∧
    (formatDuration ⟨none, none, none, none, some (mkRat 3 2), none⟩ {} =
        .error .nonInteger ↔
      ∃ v : ℚ, some v ∈ (⟨none, none, none, none, some (mkRat 3 2), none⟩ : Duration).values ∧
        v ≠ 0 ∧ ¬∃ k : ℤ, v = (k : ℚ)) := by
  refine ⟨fun q hq => by simp at hq, ?_⟩
  exact (nonInteger_error_iff ⟨none, none, none, none, some (mkRat 3 2), none⟩).2 {}
    (fun q hq => by simp at hq)

theorem formatEntries_eq_nil_iff (d : Duration) (o : FormatDurationOptions) :
    formatEntries d o = [] ↔
      d.years = none ∧ d.days = none ∧ d.hours = none ∧ d.minutes = none ∧
      d.seconds = none ∧ d.milliseconds = none := by
  obtain ⟨oy, od, oh, om, os, oms⟩ := d
  rcases oy with _ | y <;> rcases od with _ | dd <;> rcases oh with _ | hh <;>
    rcases om with _ | mm <;> rcases os with _ | ss <;> rcases oms with _ | ms <;>
    simp [formatEntries]

/-- C6: under options whose `maxEntries`, if any, passes its own earlier
check, `formatDuration` raises `FormatEmptyDurationError` exactly when the
duration has no present field at all (then the entry list is empty), and
never when some field is present. -/
theorem formatDuration_emptyDuration_iff (d : Duration) (o : FormatDurationOptions)
    (hvalid : ∀ q : ℚ, o.maxEntries = some q → ∃ k : ℤ, q = (k : ℚ) ∧ 1 ≤ k) :
    formatDuration d o = .error .emptyDuration ↔
      d.years = none ∧ d.days = none ∧ d.hours = none ∧ d.minutes = none ∧
      d.seconds = none ∧ d.milliseconds = none := by
  rw [formatDuration, maxEntries_guard1_eq_false o hvalid, maxEntries_guard2_eq_false o hvalid]
  by_cases hni : nonIntegerPresent d
  · obtain ⟨v, hv, -, -⟩ := (nonIntegerPresent_iff d).mp hni
    simp only [hni, if_true, Bool.false_eq_true, if_false]
    constructor
    · intro h
      exact absurd h (by simp)
    · rintro ⟨h1, h2, h3, h4, h5, h6⟩
      rw [Duration.values, h1, h2, h3, h4, h5, h6] at hv
      simp at hv
  · simp only [hni, Bool.false_eq_true, if_false]
    by_cases hemp : (formatEntries d o).isEmpty
    · rw [List.isEmpty_iff] at hemp
      simp [hemp, ← formatEntries_eq_nil_iff d o]
    · rw [List.isEmpty_iff] at hemp
      simp only [← formatEntries_eq_nil_iff d o]
      split_ifs <;> simp_all [List.isEmpty_iff]

/-- Witness for C6 on the empty duration with empty options. -/
theorem formatDuration_emptyDuration_iff_witness :
    (∀ q : ℚ, ({} : FormatDurationOptions).maxEntries = some q →
      ∃ k : ℤ, q = (k : ℚ) ∧ 1 ≤ k) ∧
    (formatDuration ⟨none, none, none, none, none, none⟩ {} = .error .emptyDuration ↔
      (none = (none : Option ℚ) ∧ none = (none : Option ℚ) ∧ none = (none : Option ℚ) ∧
       none = (none : Option ℚ) ∧ none = (none : Option ℚ) ∧ none = (none : Option ℚ))) :=
  ⟨fun q hq => by simp at hq,
   formatDuration_emptyDuration_iff ⟨none, none, none, none, none, none⟩ {}
     (fun q hq => by simp at hq)⟩

theorem formatEntries_toDuration_ne_nil (nd : NatDuration) (o : FormatDurationOptions)
    (hpres : nd.years.isSome = true ∨ nd.days.isSome = true ∨ nd.hours.isSome = true ∨
      nd.minutes.isSome = true ∨ nd.seconds.isSome = true ∨ nd.milliseconds.isSome = true) :
    formatEntries nd.toDuration o ≠ [] := by
  rw [Ne, formatEntries_eq_nil_iff]
  rintro ⟨h1, h2, h3, h4, h5, h6⟩
  rw [toDuration_years, Option.map_eq_none'] at h1
  rw [toDuration_days, Option.map_eq_none'] at h2
  rw [toDuration_hours, Option.map_eq_none'] at h3
  rw [toDuration_minutes, Option.map_eq_none'] at h4
  rw [toDuration_seconds, Option.map_eq_none'] at h5
  rw [toDuration_milliseconds, Option.map_eq_none'] at h6
  rcases hpres with h | h | h | h | h | h <;> simp_all

theorem sliceTo_natCast (l : List FormatEntry) (n : ℕ) :
    sliceTo l (some (n : ℚ)) = l.take n := by
  simp [sliceTo, ratTrunc_natCast]

/-- C9: on a duration with non-negative integer fields, at least one of them
present, and options that neither hide zeros nor cap the entry count,
`formatDuration` renders exactly the list of present entries — each as its
value, the optional space, and the resolved unit name (singular exactly for
value 1, honouring per-unit overrides) — joined by the separator (default
`", "`); in particular `format({years:54, days:349, hours:11})` is
`"54 years, 349 days, 11 hours"`. -/
theorem formatDuration_renders_entries :
    (∀ (nd : NatDuration) (o : FormatDurationOptions),
      o.hideZero = none → o.maxEntries = none →
      (nd.years.isSome = true ∨ nd.days.isSome = true ∨ nd.hours.isSome = true ∨
        nd.minutes.isSome = true ∨ nd.seconds.isSome = true ∨
        nd.milliseconds.isSome = true) →
      formatDuration nd.toDuration o =
        .ok (String.intercalate (o.separator.getD ", ")
          ((formatEntries nd.toDuration o).map (renderEntry o)))) ∧
    formatDuration ⟨some 54, some 349, some 11, none, none, none⟩ {} =
      .ok "54 years, 349 days, 11 hours" := by
  refine ⟨?_, by decide⟩
  intro nd o hhz hme hpres
  have hvalid : ∀ q : ℚ, o.maxEntries = some q → ∃ k : ℤ, q = (k : ℚ) ∧ 1 ≤ k := by
    intro q hq
    rw [hme] at hq
    cases hq
  have hne : (formatEntries nd.toDuration o).isEmpty = false := by
    rw [List.isEmpty_eq_false]
    exact formatEntries_toDuration_ne_nil nd o hpres
  rw [formatDuration, maxEntries_guard1_eq_false o hvalid, maxEntries_guard2_eq_false o hvalid,
    nonIntegerPresent_toDuration]
  simp only [Bool.false_eq_true, if_false, hne, hhz, hideZeroTruthy, hme, sliceTo]

/-- Witness for C9: a duration with seconds and milliseconds present,
default options. -/
theorem formatDuration_renders_entries_witness :
    (({} : FormatDurationOptions).hideZero = none ∧
      ({} : FormatDurationOptions).maxEntries = none) ∧
    formatDuration (NatDuration.toDuration ⟨none, none, none, none, some 1, some 2⟩) {} =
      .ok "1 second, 2 milliseconds" :=
  ⟨⟨rfl, rfl⟩, by
    rw [formatDuration_renders_entries.1 ⟨none, none, none, none, some 1, some 2⟩ {} rfl rfl
      (by simp)]
    decide⟩

theorem findIdx?_shift {α : Type} (p : α → Bool) :
    ∀ (l : List α) (i : ℕ), l.findIdx? p i = (l.findIdx? p 0).map (· + i) := by
  intro l
  induction l with
  | nil => intro i; simp
  | cons a t ih =>
    intro i
    rw [List.findIdx?_cons, List.findIdx?_cons]
    by_cases hpa : p a
    · simp [hpa]
    · rw [if_neg (by simp [hpa]), if_neg (by simp [hpa]), ih (i + 1), ih 1]
      cases t.findIdx? p 0 with
      | none => simp
      | some j => simp; omega

theorem drop_findIdx?_eq_dropWhile {α : Type} (p : α → Bool) (l : List α)
    (h : ∃ e ∈ l, p e = true) :
    ∃ i : ℕ, l.findIdx? p = some i ∧ l.drop i = l.dropWhile (fun a => !(p a)) := by
  induction l with
  | nil => simp at h
  | cons a t ih =>
    by_cases hpa : p a
    · refine ⟨0, ?_, ?_⟩
      · rw [List.findIdx?_cons, if_pos hpa]
      · simp [List.dropWhile_cons, hpa]
    · obtain ⟨e, he, hpe⟩ := h
      have he' : e ∈ t := by
        rcases List.mem_cons.mp he with rfl | ht
        · exact absurd hpe (by simp [hpa])
        · exact ht
      obtain ⟨i, hfind, hdrop⟩ := ih ⟨e, he', hpe⟩
      refine ⟨i + 1, ?_, ?_⟩
      · rw [List.findIdx?_cons, if_neg (by simp [hpa]), findIdx?_shift, hfind]
        rfl
      · simpa [List.dropWhile_cons, hpa] using hdrop

theorem zero_filter_fn_eq :
    (fun e : FormatEntry => !(decide (e.value ≠ 0))) = fun e => decide (e.value = 0) := by
  funext e
  by_cases h : e.value = 0 <;> simp [h]

/-- C4: zero-hiding.  With `hideZero: true` and no entry cap, every
present-but-zero entry is omitted when some entry is non-zero; when every
entry is zero, only the smallest-magnitude present unit is shown as zero
(`format({hours:0,minutes:0,seconds:0}, {hideZero:true})` is
`"0 seconds"`).  With `hideZero: "leading"`, exactly the prefix run of zero
entries before the first non-zero entry is omitted. -/
theorem formatDuration_hideZero_correct :
    (∀ (nd : NatDuration) (o : FormatDurationOptions),
      o.hideZero = some (.bool true) → o.maxEntries = none →
      (∃ e ∈ formatEntries nd.toDuration o, e.value ≠ 0) →
      formatDuration nd.toDuration o =
        .ok (String.intercalate (o.separator.getD ", ")
          (((formatEntries nd.toDuration o).filter fun e => decide (e.value ≠ 0)).map
            (renderEntry o)))) ∧
    (∀ (nd : NatDuration) (o : FormatDurationOptions),
      o.hideZero = some (.bool true) → o.maxEntries = none →
      formatEntries nd.toDuration o ≠ [] →
      (∀ e ∈ formatEntries nd.toDuration o, e.value = 0) →
      formatDuration nd.toDuration o =
        .ok ("0 " ++ (((formatEntries nd.toDuration o).getLast?.map fun e => e.unit).getD ""))) ∧
    (∀ (nd : NatDuration) (o : FormatDurationOptions),
      o.hideZero = some .leading → o.maxEntries = none →
      (∃ e ∈ formatEntries nd.toDuration o, e.value ≠ 0) →
      formatDuration nd.toDuration o =
        .ok (String.intercalate (o.separator.getD ", ")
          (((formatEntries nd.toDuration o).dropWhile fun e => decide (e.value = 0)).map
            (renderEntry o)))) ∧
    formatDuration ⟨none, none, some 0, some 0, some 0, none⟩
        { hideZero := some (.bool true) } = .ok "0 seconds" ∧
    formatDuration ⟨none, none, some 0, some 1, some 0, some 2⟩
        { hideZero := some .leading } = .ok "1 minute, 0 seconds, 2 milliseconds" := by
  have hvalid : ∀ (o : FormatDurationOptions), o.maxEntries = none →
      ∀ q : ℚ, o.maxEntries = some q → ∃ k : ℤ, q = (k : ℚ) ∧ 1 ≤ k := by
    intro o hme q hq
    rw [hme] at hq
    cases hq
  refine ⟨?_, ?_, ?_, by decide, by decide⟩
  · intro nd o hhz hme hex
    obtain ⟨e, hmem, hval⟩ := hex
    have hne : (formatEntries nd.toDuration o).isEmpty = false := by
      rw [List.isEmpty_eq_false]
      exact List.ne_nil_of_mem hmem
    have hfil : ((formatEntries nd.toDuration o).filter fun x =>
        decide (x.value ≠ 0)).isEmpty = false := by
      rw [List.isEmpty_eq_false]
      intro hnil
      rw [List.filter_eq_nil_iff] at hnil
      exact absurd (of_decide_eq_true (by simpa using hnil e hmem)) (by simp [hval])
    rw [formatDuration, maxEntries_guard1_eq_false o (hvalid o hme),
      maxEntries_guard2_eq_false o (hvalid o hme), nonIntegerPresent_toDuration]
    simp only [Bool.false_eq_true, if_false, hne, hhz, hideZeroTruthy, if_true,
      Option.some.injEq, reduceCtorEq, if_false, hfil, Bool.not_false, if_true, hme, sliceTo]
  · intro nd o hhz hme hnil hall
    have hne : (formatEntries nd.toDuration o).isEmpty = false := by
      rw [List.isEmpty_eq_false]
      exact hnil
    have hfil : ((formatEntries nd.toDuration o).filter fun x =>
        decide (x.value ≠ 0)) = [] := by
      rw [List.filter_eq_nil_iff]
      intro e he
      simp [hall e he]
    rw [formatDuration, maxEntries_guard1_eq_false o (hvalid o hme),
      maxEntries_guard2_eq_false o (hvalid o hme), nonIntegerPresent_toDuration]
    simp only [Bool.false_eq_true, if_false, hne, hhz, hideZeroTruthy, if_true,
      Option.some.injEq, reduceCtorEq, hfil, List.isEmpty_nil, Bool.not_true, if_false]
  · intro nd o hhz hme hex
    obtain ⟨e, hmem, hval⟩ := hex
    have hex' : ∃ x ∈ formatEntries nd.toDuration o,
        (fun x : FormatEntry => decide (x.value ≠ 0)) x = true :=
      ⟨e, hmem, by simpa using hval⟩
    obtain ⟨i, hfind, hdrop⟩ :=
      drop_findIdx?_eq_dropWhile (fun x : FormatEntry => decide (x.value ≠ 0))
        (formatEntries nd.toDuration o) hex'
    have hne : (formatEntries nd.toDuration o).isEmpty = false := by
      rw [List.isEmpty_eq_false]
      exact List.ne_nil_of_mem hmem
    have hjs : (max 0 (jsFindIndex (fun item => decide (item.value ≠ 0))
        (formatEntries nd.toDuration o))).toNat = i := by
      rw [jsFindIndex, hfind, max_eq_right (Int.natCast_nonneg i), Int.toNat_natCast]
    have hdz : (formatEntries nd.toDuration o).drop i =
        (formatEntries nd.toDuration o).dropWhile fun x => decide (x.value = 0) := by
      rw [hdrop, zero_filter_fn_eq]
    have hdnil : ((formatEntries nd.toDuration o).dropWhile
        fun x => decide (x.value = 0)).isEmpty = false := by
      rw [List.isEmpty_eq_false]
      intro hnil
      rw [List.dropWhile_eq_nil_iff] at hnil
      exact hval (of_decide_eq_true (hnil e hmem))
    rw [formatDuration, maxEntries_guard1_eq_false o (hvalid o hme),
      maxEntries_guard2_eq_false o (hvalid o hme), nonIntegerPresent_toDuration]
    simp only [Bool.false_eq_true, if_false, hne, hhz, hideZeroTruthy, if_true,
      Option.some.injEq, eq_self_iff_true, hjs, hdnil, Bool.not_false, hme, sliceTo, hdz]

/-- Witness for C4: `{hours:0, seconds:5}` with `hideZero: true` renders
only the non-zero entry. -/
theorem formatDuration_hideZero_correct_witness :
    (({ hideZero := some (.bool true) } : FormatDurationOptions).hideZero =
        some (.bool true) ∧
      ({ hideZero := some (.bool true) } : FormatDurationOptions).maxEntries = none ∧
      ∃ e ∈ formatEntries
        (NatDuration.toDuration ⟨none, none, some 0, none, some 5, none⟩)
        { hideZero := some (.bool true) }, e.value ≠ 0) ∧
    formatDuration (NatDuration.toDuration ⟨none, none, some 0, none, some 5, none⟩)
        { hideZero := some (.bool true) } = .ok "5 seconds" :=
  ⟨⟨rfl, rfl, by decide⟩, by
    rw [formatDuration_hideZero_correct.1 ⟨none, none, some 0, none, some 5, none⟩
      { hideZero := some (.bool true) } rfl rfl (by decide)]
    decide⟩

/-- C5: with a valid `maxEntries` of `n`, `formatDuration` renders the first
`n` entries in descending magnitude order, the cap being applied after
zero-hiding; in particular `format({days:1,hours:2,minutes:3},
{maxEntries:2})` is `"1 day, 2 hours"`. -/
theorem formatDuration_maxEntries_cap :
    (∀ (nd : NatDuration) (o : FormatDurationOptions) (n : ℕ),
      o.maxEntries = some (n : ℚ) → 1 ≤ n → o.hideZero = none →
      (nd.years.isSome = true ∨ nd.days.isSome = true ∨ nd.hours.isSome = true ∨
        nd.minutes.isSome = true ∨ nd.seconds.isSome = true ∨
        nd.milliseconds.isSome = true) →
      formatDuration nd.toDuration o =
        .ok (String.intercalate (o.separator.getD ", ")
          (((formatEntries nd.toDuration o).take n).map (renderEntry o)))) ∧
    (∀ (nd : NatDuration) (o : FormatDurationOptions) (n : ℕ),
      o.maxEntries = some (n : ℚ) → 1 ≤ n → o.hideZero = some (.bool true) →
      (∃ e ∈ formatEntries nd.toDuration o, e.value ≠ 0) →
      formatDuration nd.toDuration o =
        .ok (String.intercalate (o.separator.getD ", ")
          ((((formatEntries nd.toDuration o).filter fun e => decide (e.value ≠ 0)).take n).map
            (renderEntry o)))) ∧
    formatDuration ⟨none, some 1, some 2, some 3, none, none⟩ { maxEntries := some 2 } =
      .ok "1 day, 2 hours" := by
  have hvalid : ∀ (o : FormatDurationOptions) (n : ℕ), o.maxEntries = some (n : ℚ) → 1 ≤ n →
      ∀ q : ℚ, o.maxEntries = some q → ∃ k : ℤ, q = (k : ℚ) ∧ 1 ≤ k := by
    intro o n hme h1 q hq
    rw [hme] at hq
    injection hq with h
    refine ⟨(n : ℤ), by rw [← h]; norm_cast, by exact_mod_cast h1⟩
  refine ⟨?_, ?_, by decide⟩
  · intro nd o n hme h1 hhz hpres
    have hne : (formatEntries nd.toDuration o).isEmpty = false := by
      rw [List.isEmpty_eq_false]
      exact formatEntries_toDuration_ne_nil nd o hpres
    rw [formatDuration, maxEntries_guard1_eq_false o (hvalid o n hme h1),
      maxEntries_guard2_eq_false o (hvalid o n hme h1), nonIntegerPresent_toDuration]
    simp only [Bool.false_eq_true, if_false, hne, hhz, hideZeroTruthy, hme, sliceTo_natCast]
  · intro nd o n hme h1 hhz hex
    obtain ⟨e, hmem, hval⟩ := hex
    have hne : (formatEntries nd.toDuration o).isEmpty = false := by
      rw [List.isEmpty_eq_false]
      exact List.ne_nil_of_mem hmem
    have hfil : ((formatEntries nd.toDuration o).filter fun x =>
        decide (x.value ≠ 0)).isEmpty = false := by
      rw [List.isEmpty_eq_false]
      intro hnil
      rw [List.filter_eq_nil_iff] at hnil
      exact absurd (of_decide_eq_true (by simpa using hnil e hmem)) (by simp [hval])
    rw [formatDuration, maxEntries_guard1_eq_false o (hvalid o n hme h1),
      maxEntries_guard2_eq_false o (hvalid o n hme h1), nonIntegerPresent_toDuration]
    simp only [Bool.false_eq_true, if_false, hne, hhz, hideZeroTruthy, if_true,
      Option.some.injEq, reduceCtorEq, hfil, Bool.not_false, hme, sliceTo_natCast]

/-- Witness for C5: `{hours:1, minutes:2, seconds:3}` with `maxEntries:2`
keeps the two largest entries. -/
theorem formatDuration_maxEntries_cap_witness :
    (({ maxEntries := some 2 } : FormatDurationOptions).maxEntries = some ((2 : ℕ) : ℚ) ∧
      1 ≤ (2 : ℕ) ∧ ({ maxEntries := some 2 } : FormatDurationOptions).hideZero = none) ∧
    formatDuration (NatDuration.toDuration ⟨none, none, some 1, some 2, some 3, none⟩)
        { maxEntries := some 2 } = .ok "1 hour, 2 minutes" :=
  ⟨⟨by norm_num, by norm_num, rfl⟩, by
    rw [formatDuration_maxEntries_cap.1 ⟨none, none, some 1, some 2, some 3, none⟩
      { maxEntries := some 2 } 2 (by norm_num) (by norm_num) rfl (by simp)]
    decide⟩

/-- C10: with `hideZero: "leading"` and every present field zero, all
present entries are rendered as zeros in magnitude order; the single-entry
`"0 <unit>"` fallback is taken only under `hideZero: true`, and that
fallback uses the plural unit name and a literal space whatever the
`noSpaceBeforeUnit` and `separator` options are. -/
theorem formatDuration_leading_allZero :
    (∀ (b1 b2 b3 b4 b5 b6 : Bool) (o : FormatDurationOptions),
      o.hideZero = some .leading → o.maxEntries = none →
      (b1 = true ∨ b2 = true ∨ b3 = true ∨ b4 = true ∨ b5 = true ∨ b6 = true) →
      formatDuration
          ⟨if b1 then some 0 else none, if b2 then some 0 else none,
           if b3 then some 0 else none, if b4 then some 0 else none,
           if b5 then some 0 else none, if b6 then some 0 else none⟩ o =
        .ok (String.intercalate (o.separator.getD ", ")
          ((formatEntries
              ⟨if b1 then some 0 else none, if b2 then some 0 else none,
               if b3 then some 0 else none, if b4 then some 0 else none,
               if b5 then some 0 else none, if b6 then some 0 else none⟩ o).map
            (renderEntry o)))) ∧
    (∀ (noSp : Bool) (sep : Option String) (p : String),
      formatDuration ⟨none, none, some 0, some 0, none, none⟩
          { hideZero := some (.bool true), noSpaceBeforeUnit := noSp, separator := sep,
            minuteUnitNamePlural := some p } = .ok ("0 " ++ p)) ∧
    formatDuration ⟨none, none, some 0, some 0, none, none⟩ { hideZero := some .leading } =
      .ok "0 hours, 0 minutes" := by
  refine ⟨?_, ?_, by decide⟩
  · intro b1 b2 b3 b4 b5 b6 o hhz hme hpres
    have hv : ∀ q : ℚ, o.maxEntries = some q → ∃ k : ℤ, q = (k : ℚ) ∧ 1 ≤ k := by
      intro q hq
      rw [hme] at hq
      cases hq
    rcases b1 <;> rcases b2 <;> rcases b3 <;> rcases b4 <;> rcases b5 <;> rcases b6 <;>
      first
      | exact absurd hpres (by decide)
      | (rw [formatDuration, maxEntries_guard1_eq_false o hv, maxEntries_guard2_eq_false o hv]
         simp [formatEntries, nonIntegerPresent, Duration.values, isIntegerQ,
           hideZeroTruthy, jsFindIndex, sliceTo, hhz, hme, List.findIdx?_cons,
           List.findIdx?_nil, (by decide : (max (0 : ℤ) (-1)).toNat = 0)])
  · intro noSp sep p
    simp [formatDuration, formatEntries, nonIntegerPresent, Duration.values, isIntegerQ,
      hideZeroTruthy, sliceTo]


/-- Witness for C10: `{hours:0, minutes:0}` with `hideZero: "leading"`
renders both zero entries. -/
theorem formatDuration_leading_allZero_witness :
    (({ hideZero := some .leading } : FormatDurationOptions).hideZero = some .leading ∧
      ({ hideZero := some .leading } : FormatDurationOptions).maxEntries = none ∧
      (false = true ∨ false = true ∨ true = true ∨ true = true ∨ false = true ∨
        false = true)) ∧
    formatDuration ⟨none, none, some 0, some 0, none, none⟩ { hideZero := some .leading } =
      .ok "0 hours, 0 minutes" :=
  ⟨⟨rfl, rfl, by decide⟩,
   (formatDuration_leading_allZero.1 false false true true false false
     { hideZero := some .leading } rfl rfl (by decide)).trans (by decide)⟩

end DurationLib
